import Mathlib

/-!
Verification development for the appnest-events backend.

The definitions below are a shallow embedding of the TypeScript sources:
entities (src/entities), the auth service (src/modules/auth/auth.service.ts),
the roles guard (src/unnamed/part_017, part_018), the registrations service
(src/unnamed/part_012, final revision), the users controller and service
(src/unnamed/part_016, src/modules/users/users.service.ts), the custom
integer pipe (src/unnamed/part_001) and the response sanitization
interceptor (src/common/interceptors/logging.interceptor.ts).

Databases are modelled as explicit state records holding lists of rows;
NestJS HTTP exceptions are modelled by the `AppError` type together with
their HTTP status codes; thrown exceptions become `Except.error` results.
-/

namespace AppNest

/-- Roles of a user, from the `UserRole` enum in src/entities/user.entity.ts
(src/unnamed/part_022): ADMIN = admin, ORGANIZER = organizer,
ATTENDEE = attendee. -/
inductive UserRole where
  | admin
  | organizer
  | attendee
  deriving DecidableEq, Repr

/-- The string value carried by each `UserRole` enum member. -/
def roleToString : UserRole → String
  | .admin => "admin"
  | .organizer => "organizer"
  | .attendee => "attendee"

/-- NestJS HTTP exceptions raised by the embedded code:
BadRequestException, UnauthorizedException, ForbiddenException,
NotFoundException, each carrying its message. -/
inductive AppError where
  | badRequest : String → AppError
  | unauthorized : String → AppError
  | forbidden : String → AppError
  | notFound : String → AppError
  deriving DecidableEq, Repr

/-- HTTP status code of each NestJS exception type. -/
def statusOf : AppError → Nat
  | .badRequest _ => 400
  | .unauthorized _ => 401
  | .forbidden _ => 403
  | .notFound _ => 404

/-- A row of the `user` table (src/entities/user.entity.ts): id, unique
email, password hash, name and role (DB default attendee). -/
structure User where
  id : Nat
  email : String
  password : String
  name : String
  role : UserRole
  deriving DecidableEq, Repr

/-- A row of the `event` table (src/entities/event.entity.ts); only the
columns the verified operations read are modelled. -/
structure EventRow where
  id : Nat
  title : String
  date : String
  location : String
  capacity : Nat
  deriving DecidableEq, Repr

/-- A row of the `event_registration` table
(src/entities/event-registration.entity.ts): id, the two ManyToOne
foreign keys, and the CreateDateColumn timestamp. -/
structure Registration where
  id : Nat
  userId : Nat
  eventId : Nat
  registeredAt : Nat
  deriving DecidableEq, Repr

/-- The relational store: the three tables plus the id sequences used by
`PrimaryGeneratedColumn`. -/
structure AppDB where
  users : List User
  events : List EventRow
  registrations : List Registration
  nextUserId : Nat
  nextRegId : Nat
  deriving DecidableEq, Repr

/-- The request-scoped identity attached by JwtAuthGuard, as typed in the
roles guard (`RequestUser` in src/unnamed/part_017, part_018). -/
structure RequestUser where
  id : Nat
  email : String
  role : UserRole
  deriving DecidableEq, Repr

/-- `RolesGuard.canActivate` (src/unnamed/part_017 lines 106-145 and
part_018 lines 22-54, both revisions identical): `requiredRoles = none`
models a route with no `@Roles` metadata; with metadata present, a missing
`request.user` raises ForbiddenException with message
"Usuario no autenticado.", a role outside the list raises
ForbiddenException with the "Acceso denegado..." message, and otherwise
the request is allowed. -/
def canActivate (requiredRoles : Option (List UserRole))
    (user : Option RequestUser) : Except AppError Bool :=
  match requiredRoles with
  | none => .ok true
  | some roles =>
    match user with
    | none => .error (.forbidden "Usuario no autenticado.")
    | some u =>
      if roles.contains u.role then .ok true
      else
        .error (.forbidden ("Acceso denegado. Rol actual: " ++
          roleToString u.role ++ ". Se requiere uno de: " ++
          String.intercalate ", " (roles.map roleToString)))

/-- Recognizer for an UnauthorizedException (HTTP 401) outcome of the
guard. -/
def isUnauthorizedError : Except AppError Bool → Bool
  | .error (.unauthorized _) => true
  | _ => false

/-- The password hashing primitive (bcrypt), an external collaborator of
the auth service: `hash` is `bcrypt.hash(pw, 10)` and `compare` is
`bcrypt.compare(pw, storedHash)`. -/
structure PasswordHasher where
  hash : String → String
  compare : String → String → Bool

/-- The JWT claim set signed by `AuthService.login`
(src/modules/auth/auth.service.ts lines 104-109):
`{ sub: user.id, name, email, role }`. -/
structure Payload where
  sub : Nat
  name : String
  email : String
  role : UserRole
  deriving DecidableEq, Repr

/-- The token codec (`JwtService`), an external collaborator: `sign` is
`signAsync(payload)` and `verify` decodes a token back to its claim set. -/
structure TokenCodec (τ : Type) where
  sign : Payload → τ
  verify : τ → Option Payload

/-- `CreateUserDto` (src/dto/create-user.dto.ts): name, email, password
required; role optional. -/
structure CreateUserDto where
  name : String
  email : String
  password : String
  role : Option UserRole
  deriving DecidableEq, Repr

/-- `LoginUserDTO` (src/dto/login-user.dto.ts): email and password. -/
structure LoginUserDto where
  email : String
  password : String
  deriving DecidableEq, Repr

/-- `this.userRepo.findOne({ where: { email } })`: first user row whose
email matches. -/
def findUserByEmail (db : AppDB) (email : String) : Option User :=
  db.users.find? (fun u => u.email == email)

/-- Result of `AuthService.register`: the confirmation message and the
basic data of the created user. -/
structure RegisterResult where
  message : String
  userId : Nat
  userEmail : String
  deriving DecidableEq, Repr

/-- `AuthService.register` (src/modules/auth/auth.service.ts lines
49-74): BadRequestException when the email is already present; otherwise
the password is hashed and the user is inserted; the role column takes
the entity default attendee when the DTO omits it
(`@Column({ default: attendee })`, src/unnamed/part_022 lines 34-37). -/
def authRegister (hasher : PasswordHasher) (db : AppDB)
    (data : CreateUserDto) : Except AppError (AppDB × RegisterResult) :=
  match findUserByEmail db data.email with
  | some _ => .error (.badRequest "El correo ya está registrado")
  | none =>
    let hashedPassword := hasher.hash data.password
    let userCreated : User :=
      { id := db.nextUserId
        email := data.email
        password := hashedPassword
        name := data.name
        role := data.role.getD .attendee }
    .ok ({ db with
            users := db.users ++ [userCreated]
            nextUserId := db.nextUserId + 1 },
         { message := "Usuario registrado con exito"
           userId := userCreated.id
           userEmail := userCreated.email })

/-- Result of `AuthService.login`: message, the user summary
`{ name, role }` and the signed access token. -/
structure LoginResult (τ : Type) where
  message : String
  userName : String
  userRole : UserRole
  accessToken : τ
  deriving DecidableEq, Repr

/-- `AuthService.login` (src/modules/auth/auth.service.ts lines 86-122):
UnauthorizedException "Las credenciales son invalidas" when no user has
the email, the identical exception when the bcrypt comparison fails, and
otherwise a token over `{ sub, name, email, role }`. -/
def authLogin {τ : Type} (hasher : PasswordHasher) (codec : TokenCodec τ)
    (db : AppDB) (data : LoginUserDto) :
    Except AppError (LoginResult τ) :=
  match findUserByEmail db data.email with
  | none => .error (.unauthorized "Las credenciales son invalidas")
  | some user =>
    if hasher.compare data.password user.password then
      .ok { message := "Inicio de sesión exitoso"
            userName := user.name
            userRole := user.role
            accessToken := codec.sign
              { sub := user.id, name := user.name
                email := user.email, role := user.role } }
    else .error (.unauthorized "Las credenciales son invalidas")

/-- A concrete hasher for witnesses: the identity hash with literal
comparison. -/
def plainHasher : PasswordHasher :=
  { hash := fun pw => pw, compare := fun pw stored => pw == stored }

/-- A concrete codec for witnesses: tokens are the claim sets
themselves. -/
def plainCodec : TokenCodec Payload :=
  { sign := fun p => p, verify := fun t => some t }

/-- The authenticated caller passed to `RegistrationsService.findAll`
(src/unnamed/part_012): `{ userId: number; role: UserRole }`. -/
structure CallerIdentity where
  userId : Nat
  role : UserRole
  deriving DecidableEq, Repr

/-- `CreateRegistrationDTO` (src/dto/create-registration.dto.ts): the two
referenced ids. -/
structure CreateRegistrationDto where
  userId : Nat
  eventId : Nat
  deriving DecidableEq, Repr

/-- `RegistrationsService.findAll` (src/unnamed/part_012 lines 50-65,
final revision): an ATTENDEE caller only receives the rows whose user id
equals the caller id; any other role receives the whole table. -/
def registrationsFindAll (user : CallerIdentity) (db : AppDB) :
    List Registration :=
  if user.role == UserRole.attendee then
    db.registrations.filter (fun r => r.userId == user.userId)
  else
    db.registrations

/-- `RegistrationsService.create` (src/unnamed/part_012 lines 32-48, same
logic in src/modules/registrations/registrations.service.ts lines 29-59):
both ids are looked up; a missing user raises NotFoundException naming
the user id, a missing event raises NotFoundException naming the event
id, and otherwise a row with the server-generated `registeredAt`
timestamp (CreateDateColumn, here the `now` argument) is inserted. The
returned pair is the post-state together with the thrown exception or
the saved row. -/
def registrationsCreate (db : AppDB) (dto : CreateRegistrationDto)
    (now : Nat) : AppDB × Except AppError Registration :=
  match db.users.find? (fun u => u.id == dto.userId) with
  | none => (db, .error (.notFound ("Usuario con ID " ++
      toString dto.userId ++ " no encontrado.")))
  | some _ =>
    match db.events.find? (fun e => e.id == dto.eventId) with
    | none => (db, .error (.notFound ("Evento con ID " ++
        toString dto.eventId ++ " no encontrado.")))
    | some _ =>
      let registration : Registration :=
        { id := db.nextRegId, userId := dto.userId,
          eventId := dto.eventId, registeredAt := now }
      ({ db with
          registrations := db.registrations ++ [registration]
          nextRegId := db.nextRegId + 1 },
       .ok registration)

/-- `RegistrationsService.remove` (src/unnamed/part_012 lines 113-126,
final revision): the row is looked up, a missing row raises
NotFoundException, and otherwise `registrationRepo.delete(id)` removes
the rows with that primary key and the loaded row is returned. -/
def registrationsRemove (db : AppDB) (id : Nat) :
    AppDB × Except AppError Registration :=
  match db.registrations.find? (fun r => r.id == id) with
  | none => (db, .error (.notFound ("Registro con ID " ++
      toString id ++ " no encontrado.")))
  | some registration =>
    ({ db with
        registrations := db.registrations.filter (fun r => r.id != id) },
     .ok registration)

/-- Numeric value of a run of decimal digit characters, most significant
first. -/
def digitsToNat (ds : List Char) : Nat :=
  ds.foldl (fun acc c => acc * 10 + (c.toNat - '0'.toNat)) 0

/-- JavaScript `parseInt(value, 10)` on a character list: skip leading
whitespace, consume one optional sign, read the longest run of decimal
digits; NaN (modelled as `none`) when that run is empty. -/
def parseIntChars (cs₀ : List Char) : Option Int :=
  let cs := cs₀.dropWhile Char.isWhitespace
  let sign : Int := if cs.head? = some '-' then -1 else 1
  let cs₂ := if cs.head? = some '+' ∨ cs.head? = some '-' then cs.tail else cs
  let ds := cs₂.takeWhile Char.isDigit
  if ds.isEmpty then none else some (sign * (digitsToNat ds : Int))

/-- JavaScript `parseInt(value, 10)` on a string. -/
def parseIntJS (value : String) : Option Int :=
  parseIntChars value.data

/-- `ParseIntPipeCustom.transform` (src/unnamed/part_001 lines 7-22):
BadRequestException when `parseInt` yields NaN, the parsed integer
otherwise. -/
def pipeTransform (value : String) : Except AppError Int :=
  match parseIntJS value with
  | none => .error (.badRequest
      ("El valor \x27" ++ value ++ "\x27 no es un número válido."))
  | some val => .ok val

/-- JavaScript `String.prototype.toUpperCase()`: character-wise
upper-casing. -/
def toUpperJS (s : String) : String :=
  String.mk (s.data.map Char.toUpper)

/-- JavaScript `String.prototype.trim()`: strip leading and trailing
whitespace. -/
def trimJS (s : String) : String :=
  String.mk
    (((s.data.dropWhile Char.isWhitespace).reverse.dropWhile
        Char.isWhitespace).reverse)

/-- The name normalization in `UsersController.create` and
`UsersController.update` (src/unnamed/part_016 lines 142-144 and
271-273): `if (dto.name && typeof dto.name === string)` then
`dto.name = dto.name.trim().toUpperCase()`; an empty string is falsy
and passes through unchanged. -/
def normalizeName (name : String) : String :=
  if name = "" then name else toUpperJS (trimJS name)

/-- `UpdateUserDto` (src/dto/update-user.dto.ts): every field optional. -/
structure UpdateUserDto where
  name : Option String
  email : Option String
  password : Option String
  role : Option UserRole
  deriving DecidableEq, Repr

/-- The response of `UsersService.update`: contextual message plus the
visible user data. -/
structure UpdateUserResult where
  message : String
  userId : Nat
  userName : String
  userEmail : String
  userRole : UserRole
  deriving DecidableEq, Repr

/-- `this.userRepository.findOneBy({ id })`. -/
def findUserById (db : AppDB) (id : Nat) : Option User :=
  db.users.find? (fun u => u.id == id)

/-- `UsersService.create` (src/modules/users/users.service.ts lines
94-130): generic BadRequestException when the email exists; otherwise
the password is hashed and the row inserted (role column default
attendee). -/
def usersServiceCreate (hasher : PasswordHasher) (db : AppDB)
    (data : CreateUserDto) : Except AppError (AppDB × User) :=
  match findUserByEmail db data.email with
  | some _ => .error (.badRequest
      "No se pudo completar el registro. Verifica tus datos.")
  | none =>
    let newUser : User :=
      { id := db.nextUserId
        email := data.email
        password := hasher.hash data.password
        name := data.name
        role := data.role.getD .attendee }
    .ok ({ db with
            users := db.users ++ [newUser]
            nextUserId := db.nextUserId + 1 },
         newUser)

/-- `UsersController.create` (src/unnamed/part_016 lines 132-153):
normalizes the submitted name, then delegates to the service. -/
def usersControllerCreate (hasher : PasswordHasher) (db : AppDB)
    (dto : CreateUserDto) : Except AppError (AppDB × User) :=
  usersServiceCreate hasher db { dto with name := normalizeName dto.name }

/-- The email-change conflict test in `UsersService.update`:
`if (data.email && data.email !== user.email)` then a user holding the
new email is searched for. -/
def emailConflictCheck (db : AppDB) (user : User)
    (newEmail : Option String) : Bool :=
  match newEmail with
  | some e =>
    if e != "" && e != user.email then (findUserByEmail db e).isSome
    else false
  | none => false

/-- JavaScript truthiness of the optional password field:
`if (data.password)`. -/
def passwordTruthy : Option String → Bool
  | some p => p != ""
  | none => false

/-- The `Object.assign(user, data)` step of `UsersService.update`, with
a truthy password replaced by its hash beforehand. -/
def applyUserUpdate (hasher : PasswordHasher) (user : User)
    (data : UpdateUserDto) : User :=
  { user with
      name := data.name.getD user.name
      email := data.email.getD user.email
      password := (data.password.map
        (fun p => if p = "" then p else hasher.hash p)).getD user.password
      role := data.role.getD user.role }

/-- `UsersService.update` (src/modules/users/users.service.ts lines
203-266): NotFoundException for a missing id; BadRequestException when a
changed email is already taken; a truthy new password is re-hashed;
`Object.assign` substitutes the supplied fields; the row is saved and
the visible data returned with a contextual message. -/
def usersServiceUpdate (hasher : PasswordHasher) (db : AppDB) (id : Nat)
    (data : UpdateUserDto) : Except AppError (AppDB × UpdateUserResult) :=
  match findUserById db id with
  | none => .error (.notFound ("Usuario con ID " ++ toString id ++
      " no encontrado."))
  | some user =>
    if emailConflictCheck db user data.email then
      .error (.badRequest "El correo ya está registrado por otro usuario")
    else
      let updatedUser : User := applyUserUpdate hasher user data
      .ok ({ db with
              users := db.users.map
                (fun u => if u.id == user.id then updatedUser else u) },
           { message := if passwordTruthy data.password then
                "Contraseña actualizada correctamente."
              else "Usuario actualizado correctamente."
             userId := updatedUser.id
             userName := updatedUser.name
             userEmail := updatedUser.email
             userRole := updatedUser.role })

/-- `UsersController.update` (src/unnamed/part_016 lines 251-285):
BadRequestException when no field is supplied; otherwise the supplied
name is normalized and the service performs the update. -/
def usersControllerUpdate (hasher : PasswordHasher) (db : AppDB)
    (id : Nat) (dto : UpdateUserDto) :
    Except AppError (AppDB × UpdateUserResult) :=
  if ¬ (dto.name.isSome ∨ dto.email.isSome ∨ dto.password.isSome ∨
        dto.role.isSome) then
    .error (.badRequest "Debe enviar al menos un campo para actualizar.")
  else
    usersServiceUpdate hasher db id
      { dto with name := dto.name.map normalizeName }

/-- JavaScript `String.prototype.toLowerCase()`: character-wise
lower-casing, used by `key.toLowerCase()` in the sanitizer. -/
def toLowerJS (s : String) : String :=
  String.mk (s.data.map Char.toLower)

/-- The sensitive-key test of `SanitizeResponseInterceptor`
(src/common/interceptors/logging.interceptor.ts line 90):
`[password, token, secret].includes(key.toLowerCase())`. -/
def isSensitiveKey (k : String) : Bool :=
  ["password", "token", "secret"].contains (toLowerJS k)

mutual

/-- A JSON-like response value as handled by the interceptor: primitives,
Date objects, arrays and objects with ordered string-keyed fields. -/
inductive JVal where
  | str : String → JVal
  | num : Int → JVal
  | bool : Bool → JVal
  | null : JVal
  | date : String → JVal
  | arr : JArr → JVal
  | obj : JObj → JVal

/-- A JSON array, as its own inductive for mutual recursion. -/
inductive JArr where
  | nil : JArr
  | cons : JVal → JArr → JArr

/-- The ordered fields of a JSON object. -/
inductive JObj where
  | nil : JObj
  | cons : String → JVal → JObj → JObj

end

mutual

/-- `cleanSensitiveData` (src/common/interceptors/logging.interceptor.ts
lines 78-98): Date becomes its ISO string, arrays are cleaned
element-wise, objects drop the fields with a sensitive key and clean the
rest, primitives pass through. -/
def cleanVal : JVal → JVal
  | .date iso => .str iso
  | .arr xs => .arr (cleanArr xs)
  | .obj fs => .obj (cleanObj fs)
  | v => v

/-- `cleanSensitiveData` on the elements of an array. -/
def cleanArr : JArr → JArr
  | .nil => .nil
  | .cons v rest => .cons (cleanVal v) (cleanArr rest)

/-- `cleanSensitiveData` on the entries of an object: the loop over
`Object.entries(data)` with the `continue` on sensitive keys. -/
def cleanObj : JObj → JObj
  | .nil => .nil
  | .cons k v rest =>
    if isSensitiveKey k then cleanObj rest
    else .cons k (cleanVal v) (cleanObj rest)

end

/-- JavaScript `key in object` on the modelled object fields. -/
def hasKeyObj : JObj → String → Bool
  | .nil, _ => false
  | .cons k _ rest, key => k == key || hasKeyObj rest key

/-- The wrap-skipping test of the interceptor (lines 60-65): the
sanitized value is an object and both `success` and `data` are among its
keys. -/
def alreadyEnveloped : JVal → Bool
  | .obj fs => hasKeyObj fs "success" && hasKeyObj fs "data"
  | _ => false

/-- `SanitizeResponseInterceptor.intercept`
(src/common/interceptors/logging.interceptor.ts lines 52-75): clean the
response value, return it unchanged when it already carries `success`
and `data` keys, and wrap it as `{ success: true, data: ... }`
otherwise. -/
def interceptResponse (data : JVal) : JVal :=
  let sanitized := cleanVal data
  if alreadyEnveloped sanitized then sanitized
  else .obj (.cons "success" (.bool true) (.cons "data" sanitized .nil))

mutual

/-- No object field at any depth has a sensitive key. -/
def okVal : JVal → Bool
  | .arr xs => okArr xs
  | .obj fs => okObj fs
  | _ => true

/-- `okVal` on every element of an array. -/
def okArr : JArr → Bool
  | .nil => true
  | .cons v rest => okVal v && okArr rest

/-- `okVal` on every entry of an object, with its own key checked. -/
def okObj : JObj → Bool
  | .nil => true
  | .cons k v rest => !isSensitiveKey k && okVal v && okObj rest

end

mutual

/-- Some object field at some depth is named password, in any letter
case. -/
def hasPasswordKeyVal : JVal → Bool
  | .arr xs => hasPasswordKeyArr xs
  | .obj fs => hasPasswordKeyObj fs
  | _ => false

/-- `hasPasswordKeyVal` over the elements of an array. -/
def hasPasswordKeyArr : JArr → Bool
  | .nil => false
  | .cons v rest => hasPasswordKeyVal v || hasPasswordKeyArr rest

/-- `hasPasswordKeyVal` over the entries of an object. -/
def hasPasswordKeyObj : JObj → Bool
  | .nil => false
  | .cons k v rest => (toLowerJS k == "password") || hasPasswordKeyVal v ||
      hasPasswordKeyObj rest

end

/-- JavaScript `object[key]` lookup on the modelled object fields. -/
def getFieldObj : JObj → String → Option JVal
  | .nil, _ => none
  | .cons k v rest, key => if k == key then some v else getFieldObj rest key

/-- The value of the `success` field of an object response. -/
def getSuccessField : JVal → Option JVal
  | .obj fs => getFieldObj fs "success"
  | _ => none

/-- C2 counterexample: on a route restricted to admin, a request with no
attached identity makes the guard fail with ForbiddenException (HTTP 403,
message "Usuario no autenticado."), not with an Unauthenticated (401)
error as the claim states. -/
theorem rolesGuard_no_identity_not_unauthenticated :
    isUnauthorizedError (canActivate (some [UserRole.admin]) none) = false ∧
    canActivate (some [UserRole.admin]) none =
      .error (.forbidden "Usuario no autenticado.") ∧
    statusOf (.forbidden "Usuario no autenticado.") = 403 :=
  ⟨rfl, rfl, rfl⟩

/-- C2 (amended): for every declared role restriction, a request reaching
the guard with no attached identity fails with ForbiddenException
(HTTP 403) carrying the message "Usuario no autenticado.". -/
theorem rolesGuard_no_identity_forbidden (roles : List UserRole) :
    canActivate (some roles) none =
      .error (.forbidden "Usuario no autenticado.") ∧
    statusOf (.forbidden "Usuario no autenticado.") = 403 :=
  ⟨rfl, rfl⟩

/-- C8: with an identity attached, the guard permits the request exactly
when the role is in the declared set; otherwise it fails with
ForbiddenException (HTTP 403) whose message states the actual role and
the comma-joined list of acceptable roles. -/
theorem rolesGuard_role_check (roles : List UserRole) (u : RequestUser) :
    (u.role ∈ roles → canActivate (some roles) (some u) = .ok true) ∧
    (u.role ∉ roles →
      canActivate (some roles) (some u) =
        .error (.forbidden ("Acceso denegado. Rol actual: " ++
          roleToString u.role ++ ". Se requiere uno de: " ++
          String.intercalate ", " (roles.map roleToString))) ∧
      statusOf ((AppError.forbidden ("Acceso denegado. Rol actual: " ++
          roleToString u.role ++ ". Se requiere uno de: " ++
          String.intercalate ", " (roles.map roleToString)))) = 403) := by
  constructor
  · intro hmem
    have hc : roles.contains u.role = true := by
      simpa using hmem
    simp only [canActivate, hc, if_true]
  · intro hnot
    have hc : roles.contains u.role = false := by
      simpa using hnot
    refine ⟨?_, rfl⟩
    simp only [canActivate, hc, Bool.false_eq_true, if_false]

/-- Witness for C8 at concrete inputs: an admin passes the admin-only
gate, while an attendee is rejected with the explicit message. -/
theorem rolesGuard_role_check_witness :
    canActivate (some [UserRole.admin])
        (some { id := 1, email := "a@x.com", role := UserRole.admin }) =
      .ok true ∧
    canActivate (some [UserRole.admin, UserRole.organizer])
        (some { id := 2, email := "b@x.com", role := UserRole.attendee }) =
      .error (.forbidden
        "Acceso denegado. Rol actual: attendee. Se requiere uno de: admin, organizer") := by
  constructor
  · exact (rolesGuard_role_check [UserRole.admin]
      { id := 1, email := "a@x.com", role := UserRole.admin }).1 (by decide)
  · have h := (rolesGuard_role_check [UserRole.admin, UserRole.organizer]
      { id := 2, email := "b@x.com", role := UserRole.attendee }).2 (by decide)
    simpa using h.1

/-- C4: the failure for an unknown email and the failure for a wrong
password on an existing user are one and the same error value:
UnauthorizedException, message "Las credenciales son invalidas",
HTTP 401 in both scenarios. -/
theorem login_failure_no_leak {τ : Type} (hasher : PasswordHasher)
    (codec : TokenCodec τ) (db₁ db₂ : AppDB)
    (data₁ data₂ : LoginUserDto) (u : User)
    (habsent : findUserByEmail db₁ data₁.email = none)
    (hfound : findUserByEmail db₂ data₂.email = some u)
    (hbad : hasher.compare data₂.password u.password = false) :
    authLogin hasher codec db₁ data₁ = authLogin hasher codec db₂ data₂ ∧
    authLogin hasher codec db₁ data₁ =
      .error (.unauthorized "Las credenciales son invalidas") ∧
    statusOf (.unauthorized "Las credenciales son invalidas") = 401 := by
  have h₁ : authLogin hasher codec db₁ data₁ =
      .error (.unauthorized "Las credenciales son invalidas") := by
    simp [authLogin, habsent]
  have h₂ : authLogin hasher codec db₂ data₂ =
      .error (.unauthorized "Las credenciales son invalidas") := by
    simp [authLogin, hfound, hbad]
  exact ⟨h₁.trans h₂.symm, h₁, rfl⟩

/-- Witness for C4: one store without the email, one store where the user
exists but the password differs; both logins produce the same 401
error. -/
theorem login_failure_no_leak_witness :
    authLogin plainHasher plainCodec
        { users := [], events := [], registrations := [],
          nextUserId := 1, nextRegId := 1 }
        { email := "a@x.com", password := "12345" } =
      authLogin plainHasher plainCodec
        { users := [{ id := 1, email := "a@x.com", password := "54321",
                      name := "ANA", role := UserRole.attendee }],
          events := [], registrations := [],
          nextUserId := 2, nextRegId := 1 }
        { email := "a@x.com", password := "12345" } ∧
    authLogin plainHasher plainCodec
        { users := [], events := [], registrations := [],
          nextUserId := 1, nextRegId := 1 }
        { email := "a@x.com", password := "12345" } =
      .error (.unauthorized "Las credenciales son invalidas") := by
  have h := login_failure_no_leak plainHasher plainCodec
    { users := [], events := [], registrations := [],
      nextUserId := 1, nextRegId := 1 }
    { users := [{ id := 1, email := "a@x.com", password := "54321",
                  name := "ANA", role := UserRole.attendee }],
      events := [], registrations := [],
      nextUserId := 2, nextRegId := 1 }
    { email := "a@x.com", password := "12345" }
    { email := "a@x.com", password := "12345" }
    { id := 1, email := "a@x.com", password := "54321",
      name := "ANA", role := UserRole.attendee }
    (by decide) (by decide) (by decide)
  exact ⟨h.1, h.2.1⟩

/-- `List.find?` over an append searches the right part once the left
part has no match. -/
theorem find?_append_of_none {α : Type} (p : α → Bool) (l₁ l₂ : List α)
    (h : l₁.find? p = none) : (l₁ ++ l₂).find? p = l₂.find? p := by
  induction l₁ with
  | nil => rfl
  | cons a t ih =>
    rw [List.find?_cons] at h
    cases hp : p a with
    | true => simp [hp] at h
    | false =>
      rw [List.cons_append, List.find?_cons, hp]
      exact ih (by simpa [hp] using h)

/-- C6: for a fresh email, register() with role omitted followed by
login() with the same credentials succeeds, and the issued token decodes
to a claim set whose role is the stored default attendee. Hypotheses:
the codec round-trips its own tokens and bcrypt accepts a password
against its own hash. -/
theorem register_then_login_role_attendee {τ : Type}
    (hasher : PasswordHasher) (codec : TokenCodec τ)
    (hcodec : ∀ p, codec.verify (codec.sign p) = some p)
    (hhash : ∀ pw, hasher.compare pw (hasher.hash pw) = true)
    (db : AppDB) (name email password : String)
    (hfresh : ∀ u ∈ db.users, u.email ≠ email) :
    ∃ db' r, authRegister hasher db
        { name := name, email := email, password := password,
          role := none } = .ok (db', r) ∧
      ∃ res, authLogin hasher codec db'
          { email := email, password := password } = .ok res ∧
        ∃ p, codec.verify res.accessToken = some p ∧
          p.role = UserRole.attendee := by
  have hnone : findUserByEmail db email = none := by
    rw [findUserByEmail, List.find?_eq_none]
    intro u hu
    simpa using hfresh u hu
  have hnone' : db.users.find? (fun u => u.email == email) = none := hnone
  simp only [authRegister, hnone]
  refine ⟨_, _, rfl, ?_⟩
  simp only [authLogin, findUserByEmail]
  rw [find?_append_of_none _ _ _ hnone']
  simp only [List.find?_cons, beq_self_eq_true, hhash password]
  exact ⟨_, rfl, _, hcodec _, rfl⟩

/-- Witness for C6: a concrete register-then-login run on the empty
store, using the plain hasher and the plain codec. -/
theorem register_then_login_role_attendee_witness :
    ∃ db' r, authRegister plainHasher
        { users := [], events := [], registrations := [],
          nextUserId := 1, nextRegId := 1 }
        { name := "JUAN", email := "juan@x.com", password := "12345",
          role := none } = .ok (db', r) ∧
      ∃ res, authLogin plainHasher plainCodec db'
          { email := "juan@x.com", password := "12345" } = .ok res ∧
        ∃ p, plainCodec.verify res.accessToken = some p ∧
          p.role = UserRole.attendee :=
  register_then_login_role_attendee plainHasher plainCodec
    (fun _ => rfl) (fun pw => beq_self_eq_true pw)
    { users := [], events := [], registrations := [],
      nextUserId := 1, nextRegId := 1 }
    "JUAN" "juan@x.com" "12345"
    (by intro u hu; cases hu)

/-- On a list of rows with pairwise distinct ids, filtering by the id of
a member keeps exactly that member. -/
theorem filter_beq_id_singleton (l : List Registration)
    (hnd : (l.map Registration.id).Nodup) (r : Registration)
    (hr : r ∈ l) : l.filter (fun x => x.id == r.id) = [r] := by
  induction l with
  | nil => cases hr
  | cons a t ih =>
    rw [List.map_cons, List.nodup_cons] at hnd
    rcases List.mem_cons.mp hr with rfl | hmem
    · rw [List.filter_cons_of_pos (by simp)]
      have ht : t.filter (fun x => x.id == r.id) = [] := by
        rw [List.filter_eq_nil_iff]
        intro x hx hxe
        exact hnd.1 ((beq_iff_eq.mp hxe) ▸
          List.mem_map_of_mem Registration.id hx)
      rw [ht]
    · have hne : a.id ≠ r.id := by
        intro he
        exact hnd.1 (he ▸ List.mem_map_of_mem Registration.id hmem)
      rw [List.filter_cons_of_neg (by simpa using hne)]
      exact ih hnd.2 hmem

/-- C1: deleting a registration fails with NotFoundException (HTTP 404)
and leaves the store untouched when no row has the id; when a row
exists the deletion is unconditional, the surviving rows are exactly
those with a different id (so, ids being unique, exactly the one row is
removed), and the User and Event tables are untouched. -/
theorem registrations_remove_spec (db : AppDB) (rid : Nat) :
    ((∀ r ∈ db.registrations, r.id ≠ rid) →
      registrationsRemove db rid =
        (db, .error (.notFound ("Registro con ID " ++ toString rid ++
          " no encontrado.")))) ∧
    ((∃ r ∈ db.registrations, r.id = rid) →
      ∃ r, (registrationsRemove db rid).2 = .ok r ∧
        r ∈ db.registrations ∧ r.id = rid ∧
        (registrationsRemove db rid).1.users = db.users ∧
        (registrationsRemove db rid).1.events = db.events ∧
        (∀ r₂, r₂ ∈ (registrationsRemove db rid).1.registrations ↔
          (r₂ ∈ db.registrations ∧ r₂.id ≠ rid)) ∧
        ((db.registrations.map Registration.id).Nodup →
          db.registrations.Perm
            (r :: (registrationsRemove db rid).1.registrations))) := by
  constructor
  · intro habsent
    have hfind : db.registrations.find? (fun r => r.id == rid) = none := by
      rw [List.find?_eq_none]
      intro r hr
      simpa using habsent r hr
    simp [registrationsRemove, hfind]
  · intro hexists
    have hsome : (db.registrations.find? (fun r => r.id == rid)).isSome := by
      rw [List.find?_isSome]
      rcases hexists with ⟨r, hr, hid⟩
      exact ⟨r, hr, by simpa using hid⟩
    rcases Option.isSome_iff_exists.mp hsome with ⟨r, hfind⟩
    have hmem : r ∈ db.registrations := List.mem_of_find?_eq_some hfind
    have hid : r.id = rid := by
      have := List.find?_some hfind
      simpa using this
    refine ⟨r, ?_, hmem, hid, ?_, ?_, ?_, ?_⟩
    · simp [registrationsRemove, hfind]
    · simp [registrationsRemove, hfind]
    · simp [registrationsRemove, hfind]
    · intro r₂
      simp [registrationsRemove, hfind, List.mem_filter, bne_iff_ne]
    · intro hnd
      have hperm := List.filter_append_perm
        (fun x => x.id == rid) db.registrations
      have hsing : db.registrations.filter (fun x => x.id == rid) = [r] := by
        rw [← hid]
        exact filter_beq_id_singleton db.registrations hnd r hmem
      rw [hsing] at hperm
      have hpost : (registrationsRemove db rid).1.registrations =
          db.registrations.filter (fun x => !(x.id == rid)) := by
        simp [registrationsRemove, hfind]
        rfl
      rw [hpost]
      exact hperm.symm

/-- Witness for C1: removing id 5 from a two-row store fails with
NotFound; removing id 1 deletes exactly that row. -/
theorem registrations_remove_spec_witness :
    registrationsRemove
        { users := [], events := [],
          registrations :=
            [{ id := 1, userId := 2, eventId := 10, registeredAt := 0 },
             { id := 3, userId := 4, eventId := 10, registeredAt := 1 }],
          nextUserId := 1, nextRegId := 4 } 5 =
      ({ users := [], events := [],
         registrations :=
           [{ id := 1, userId := 2, eventId := 10, registeredAt := 0 },
            { id := 3, userId := 4, eventId := 10, registeredAt := 1 }],
         nextUserId := 1, nextRegId := 4 },
       .error (.notFound "Registro con ID 5 no encontrado.")) ∧
    ∃ r, (registrationsRemove
        { users := [], events := [],
          registrations :=
            [{ id := 1, userId := 2, eventId := 10, registeredAt := 0 },
             { id := 3, userId := 4, eventId := 10, registeredAt := 1 }],
          nextUserId := 1, nextRegId := 4 } 1).2 = .ok r ∧
      (registrationsRemove
        { users := [], events := [],
          registrations :=
            [{ id := 1, userId := 2, eventId := 10, registeredAt := 0 },
             { id := 3, userId := 4, eventId := 10, registeredAt := 1 }],
          nextUserId := 1, nextRegId := 4 } 1).1.registrations =
        [{ id := 3, userId := 4, eventId := 10, registeredAt := 1 }] := by
  constructor
  · have h := (registrations_remove_spec
      { users := [], events := [],
        registrations :=
          [{ id := 1, userId := 2, eventId := 10, registeredAt := 0 },
           { id := 3, userId := 4, eventId := 10, registeredAt := 1 }],
        nextUserId := 1, nextRegId := 4 } 5).1 (by decide)
    simpa using h
  · have h := (registrations_remove_spec
      { users := [], events := [],
        registrations :=
          [{ id := 1, userId := 2, eventId := 10, registeredAt := 0 },
           { id := 3, userId := 4, eventId := 10, registeredAt := 1 }],
        nextUserId := 1, nextRegId := 4 } 1).2 (by decide)
    rcases h with ⟨r, hok, -, -, -, -, -, -⟩
    exact ⟨r, hok, by decide⟩

/-- C3: listing registrations as an attendee yields exactly the rows
whose user id equals the caller id; listing as admin or organizer
yields the table unfiltered. -/
theorem registrations_findAll_filtering (caller : CallerIdentity)
    (db : AppDB) :
    (caller.role = UserRole.attendee →
      ∀ r, r ∈ registrationsFindAll caller db ↔
        (r ∈ db.registrations ∧ r.userId = caller.userId)) ∧
    (caller.role = UserRole.admin ∨ caller.role = UserRole.organizer →
      registrationsFindAll caller db = db.registrations) := by
  constructor
  · intro hrole r
    simp [registrationsFindAll, hrole, List.mem_filter]
  · intro hrole
    rcases hrole with h | h <;> simp [registrationsFindAll, h]

/-- Witness for C3: on the same two-row store, attendee 2 sees only the
own row while an admin sees both rows. -/
theorem registrations_findAll_filtering_witness :
    ({ id := 1, userId := 2, eventId := 10, registeredAt := 0 } ∈
        registrationsFindAll { userId := 2, role := UserRole.attendee }
          { users := [], events := [],
            registrations :=
              [{ id := 1, userId := 2, eventId := 10, registeredAt := 0 },
               { id := 3, userId := 4, eventId := 10, registeredAt := 1 }],
            nextUserId := 1, nextRegId := 4 } ↔ True) ∧
    ¬ ({ id := 3, userId := 4, eventId := 10, registeredAt := 1 } ∈
        registrationsFindAll { userId := 2, role := UserRole.attendee }
          { users := [], events := [],
            registrations :=
              [{ id := 1, userId := 2, eventId := 10, registeredAt := 0 },
               { id := 3, userId := 4, eventId := 10, registeredAt := 1 }],
            nextUserId := 1, nextRegId := 4 }) ∧
    registrationsFindAll { userId := 7, role := UserRole.admin }
        { users := [], events := [],
          registrations :=
            [{ id := 1, userId := 2, eventId := 10, registeredAt := 0 },
             { id := 3, userId := 4, eventId := 10, registeredAt := 1 }],
          nextUserId := 1, nextRegId := 4 } =
      [{ id := 1, userId := 2, eventId := 10, registeredAt := 0 },
       { id := 3, userId := 4, eventId := 10, registeredAt := 1 }] := by
  refine ⟨?_, ?_, ?_⟩
  · rw [(registrations_findAll_filtering
      { userId := 2, role := UserRole.attendee }
      { users := [], events := [],
        registrations :=
          [{ id := 1, userId := 2, eventId := 10, registeredAt := 0 },
           { id := 3, userId := 4, eventId := 10, registeredAt := 1 }],
        nextUserId := 1, nextRegId := 4 }).1 rfl]
    simp
  · rw [(registrations_findAll_filtering
      { userId := 2, role := UserRole.attendee }
      { users := [], events := [],
        registrations :=
          [{ id := 1, userId := 2, eventId := 10, registeredAt := 0 },
           { id := 3, userId := 4, eventId := 10, registeredAt := 1 }],
        nextUserId := 1, nextRegId := 4 }).1 rfl]
    decide
  · exact (registrations_findAll_filtering
      { userId := 7, role := UserRole.admin }
      { users := [], events := [],
        registrations :=
          [{ id := 1, userId := 2, eventId := 10, registeredAt := 0 },
           { id := 3, userId := 4, eventId := 10, registeredAt := 1 }],
        nextUserId := 1, nextRegId := 4 }).2 (Or.inl rfl)

/-- C5: creating a registration with an unresolvable user id fails with
NotFoundException naming the user id and persists nothing; with the user
present but the event id unresolvable it fails with NotFoundException
naming the event id and persists nothing; with both present a fresh row
referencing both ids is appended, carrying the server-generated
`registeredAt` timestamp. -/
theorem registrations_create_referential (db : AppDB)
    (dto : CreateRegistrationDto) (now : Nat) :
    ((∀ u ∈ db.users, u.id ≠ dto.userId) →
      registrationsCreate db dto now =
        (db, .error (.notFound ("Usuario con ID " ++
          toString dto.userId ++ " no encontrado.")))) ∧
    ((∃ u ∈ db.users, u.id = dto.userId) →
      (∀ e ∈ db.events, e.id ≠ dto.eventId) →
      registrationsCreate db dto now =
        (db, .error (.notFound ("Evento con ID " ++
          toString dto.eventId ++ " no encontrado.")))) ∧
    ((∃ u ∈ db.users, u.id = dto.userId) →
      (∃ e ∈ db.events, e.id = dto.eventId) →
      ∃ reg, (registrationsCreate db dto now).2 = .ok reg ∧
        reg.userId = dto.userId ∧ reg.eventId = dto.eventId ∧
        reg.registeredAt = now ∧
        (registrationsCreate db dto now).1.registrations =
          db.registrations ++ [reg] ∧
        (registrationsCreate db dto now).1.users = db.users ∧
        (registrationsCreate db dto now).1.events = db.events) := by
  refine ⟨?_, ?_, ?_⟩
  · intro habsent
    have hfind : db.users.find? (fun u => u.id == dto.userId) = none := by
      rw [List.find?_eq_none]
      intro u hu
      simpa using habsent u hu
    simp [registrationsCreate, hfind]
  · intro huser hevent
    have husome : (db.users.find? (fun u => u.id == dto.userId)).isSome := by
      rw [List.find?_isSome]
      rcases huser with ⟨u, hu, hid⟩
      exact ⟨u, hu, by simpa using hid⟩
    rcases Option.isSome_iff_exists.mp husome with ⟨u, hufind⟩
    have hefind : db.events.find? (fun e => e.id == dto.eventId) = none := by
      rw [List.find?_eq_none]
      intro e he
      simpa using hevent e he
    simp [registrationsCreate, hufind, hefind]
  · intro huser hevent
    have husome : (db.users.find? (fun u => u.id == dto.userId)).isSome := by
      rw [List.find?_isSome]
      rcases huser with ⟨u, hu, hid⟩
      exact ⟨u, hu, by simpa using hid⟩
    rcases Option.isSome_iff_exists.mp husome with ⟨u, hufind⟩
    have hesome : (db.events.find? (fun e => e.id == dto.eventId)).isSome := by
      rw [List.find?_isSome]
      rcases hevent with ⟨e, he, hid⟩
      exact ⟨e, he, by simpa using hid⟩
    rcases Option.isSome_iff_exists.mp hesome with ⟨e, hefind⟩
    have hok : (registrationsCreate db dto now).2 =
        .ok { id := db.nextRegId, userId := dto.userId,
              eventId := dto.eventId, registeredAt := now } := by
      simp [registrationsCreate, hufind, hefind]
    refine ⟨_, hok, rfl, rfl, rfl, ?_, ?_, ?_⟩ <;>
      simp [registrationsCreate, hufind, hefind]

/-- Witness for C5: the example store with user 2 and event 10: user 99
fails with the user message, event 99 fails with the event message, and
the pair (2, 10) inserts the timestamped row. -/
theorem registrations_create_referential_witness :
    registrationsCreate
        { users := [{ id := 2, email := "b@x.com", password := "h",
                      name := "BETO", role := UserRole.attendee }],
          events := [{ id := 10, title := "Expo", date := "2025-12-01",
                       location := "Bogota", capacity := 100 }],
          registrations := [], nextUserId := 3, nextRegId := 1 }
        { userId := 99, eventId := 10 } 7 =
      ({ users := [{ id := 2, email := "b@x.com", password := "h",
                     name := "BETO", role := UserRole.attendee }],
         events := [{ id := 10, title := "Expo", date := "2025-12-01",
                      location := "Bogota", capacity := 100 }],
         registrations := [], nextUserId := 3, nextRegId := 1 },
       .error (.notFound "Usuario con ID 99 no encontrado.")) ∧
    registrationsCreate
        { users := [{ id := 2, email := "b@x.com", password := "h",
                      name := "BETO", role := UserRole.attendee }],
          events := [{ id := 10, title := "Expo", date := "2025-12-01",
                       location := "Bogota", capacity := 100 }],
          registrations := [], nextUserId := 3, nextRegId := 1 }
        { userId := 2, eventId := 99 } 7 =
      ({ users := [{ id := 2, email := "b@x.com", password := "h",
                     name := "BETO", role := UserRole.attendee }],
         events := [{ id := 10, title := "Expo", date := "2025-12-01",
                      location := "Bogota", capacity := 100 }],
         registrations := [], nextUserId := 3, nextRegId := 1 },
       .error (.notFound "Evento con ID 99 no encontrado.")) ∧
    ∃ reg, (registrationsCreate
        { users := [{ id := 2, email := "b@x.com", password := "h",
                      name := "BETO", role := UserRole.attendee }],
          events := [{ id := 10, title := "Expo", date := "2025-12-01",
                       location := "Bogota", capacity := 100 }],
          registrations := [], nextUserId := 3, nextRegId := 1 }
        { userId := 2, eventId := 10 } 7).2 = .ok reg ∧
      reg.userId = 2 ∧ reg.eventId = 10 ∧ reg.registeredAt = 7 := by
  refine ⟨?_, ?_, ?_⟩
  · have h := (registrations_create_referential
      { users := [{ id := 2, email := "b@x.com", password := "h",
                    name := "BETO", role := UserRole.attendee }],
        events := [{ id := 10, title := "Expo", date := "2025-12-01",
                     location := "Bogota", capacity := 100 }],
        registrations := [], nextUserId := 3, nextRegId := 1 }
      { userId := 99, eventId := 10 } 7).1 (by decide)
    simpa using h
  · have h := (registrations_create_referential
      { users := [{ id := 2, email := "b@x.com", password := "h",
                    name := "BETO", role := UserRole.attendee }],
        events := [{ id := 10, title := "Expo", date := "2025-12-01",
                     location := "Bogota", capacity := 100 }],
        registrations := [], nextUserId := 3, nextRegId := 1 }
      { userId := 2, eventId := 99 } 7).2.1 (by decide) (by decide)
    simpa using h
  · have h := (registrations_create_referential
      { users := [{ id := 2, email := "b@x.com", password := "h",
                    name := "BETO", role := UserRole.attendee }],
        events := [{ id := 10, title := "Expo", date := "2025-12-01",
                     location := "Bogota", capacity := 100 }],
        registrations := [], nextUserId := 3, nextRegId := 1 }
      { userId := 2, eventId := 10 } 7).2.2 (by decide) (by decide)
    rcases h with ⟨reg, hok, h1, h2, h3, -, -, -⟩
    exact ⟨reg, hok, h1, h2, h3⟩

/-- A decimal digit is not whitespace. -/
theorem isDigit_not_whitespace (c : Char) (h : c.isDigit = true) :
    c.isWhitespace = false := by
  cases hw : c.isWhitespace
  · rfl
  · exfalso
    rw [Char.isWhitespace] at hw
    simp only [Bool.or_eq_true, decide_eq_true_eq] at hw
    rcases hw with ((h1 | h1) | h1) | h1 <;> subst h1 <;>
      exact absurd h (by decide)

/-- `takeWhile` over an append keeps exactly the left part when the left
part satisfies the predicate throughout and the right part opens with a
failing element. -/
theorem takeWhile_all_append (p : Char → Bool) (l₁ l₂ : List Char)
    (h₁ : ∀ c ∈ l₁, p c = true)
    (h₂ : ∀ c, l₂.head? = some c → p c = false) :
    (l₁ ++ l₂).takeWhile p = l₁ := by
  induction l₁ with
  | nil =>
    cases l₂ with
    | nil => rfl
    | cons a t =>
      simp only [List.nil_append, List.takeWhile_cons, h₂ a rfl,
        Bool.false_eq_true, if_false]
  | cons a t ih =>
    simp only [List.cons_append, List.takeWhile_cons,
      h₁ a (List.mem_cons_self a t), if_true]
    rw [ih (fun c hc => h₁ c (List.mem_cons_of_mem a hc))]

/-- C9: the custom :id pipe rejects with BadRequestException (HTTP 400)
exactly when `parseInt` yields NaN; every string opening with a digit
run is accepted and silently truncated to the integer value of that run,
whatever follows it. -/
theorem parseIntPipe_truncates :
    (∀ value : String, parseIntJS value = none →
      pipeTransform value = .error (.badRequest
        ("El valor \x27" ++ value ++ "\x27 no es un número válido."))) ∧
    (∀ (ds rest : List Char), ds ≠ [] →
      (∀ c ∈ ds, c.isDigit = true) →
      (∀ c, rest.head? = some c → c.isDigit = false) →
      pipeTransform (String.mk (ds ++ rest)) =
        .ok (Int.ofNat (digitsToNat ds))) := by
  constructor
  · intro value h
    rw [pipeTransform, h]
  · intro ds rest hne hdig hrest
    obtain ⟨d, ds', rfl⟩ : ∃ d ds', ds = d :: ds' := by
      cases ds with
      | nil => exact absurd rfl hne
      | cons d t => exact ⟨d, t, rfl⟩
    have hd : d.isDigit = true := hdig d (List.mem_cons_self d ds')
    have hw : d.isWhitespace = false := isDigit_not_whitespace d hd
    have hplus : d ≠ '+' := by
      intro he
      rw [he] at hd
      exact absurd hd (by decide)
    have hminus : d ≠ '-' := by
      intro he
      rw [he] at hd
      exact absurd hd (by decide)
    have hparse : parseIntChars ((d :: ds') ++ rest) =
        some (Int.ofNat (digitsToNat (d :: ds'))) := by
      rw [parseIntChars]
      simp only [List.cons_append, List.dropWhile_cons, hw,
        Bool.false_eq_true, if_false, List.head?_cons, Option.some.injEq,
        hplus, hminus, or_self, if_false, List.tail_cons]
      rw [show (d :: (ds' ++ rest)) = (d :: ds') ++ rest from rfl]
      rw [takeWhile_all_append Char.isDigit (d :: ds') rest hdig hrest]
      simp
    have : parseIntJS (String.mk ((d :: ds') ++ rest)) =
        some (Int.ofNat (digitsToNat (d :: ds'))) := hparse
    rw [pipeTransform, this]

/-- Witness for C9: the id strings "12abc" and "3.9" are accepted as 12
and 3 respectively, while "abc" is rejected with the 400 message. -/
theorem parseIntPipe_truncates_witness :
    pipeTransform "12abc" = .ok 12 ∧
    pipeTransform "3.9" = .ok 3 ∧
    pipeTransform "abc" = .error (.badRequest
      "El valor \x27abc\x27 no es un número válido.") := by
  refine ⟨?_, ?_, ?_⟩
  · have h := parseIntPipe_truncates.2 ['1', '2'] ['a', 'b', 'c']
      (by decide) (by decide) (by decide)
    simpa using h
  · have h := parseIntPipe_truncates.2 ['3'] ['.', '9']
      (by decide) (by decide) (by decide)
    simpa using h
  · have h := parseIntPipe_truncates.1 "abc" (by decide)
    simpa using h

/-- The controller normalization agrees with trim-then-uppercase on
every string, the empty string included. -/
theorem normalizeName_eq (name : String) :
    normalizeName name = toUpperJS (trimJS name) := by
  rw [normalizeName]
  split
  · next h => subst h; rfl
  · rfl

/-- C10: on the admin users endpoints, a created user is stored and
returned with the upper-cased trimmed form of the submitted name, and an
update that supplies a name stores and returns the upper-cased trimmed
form of that name. -/
theorem users_name_normalized :
    (∀ (hasher : PasswordHasher) (db : AppDB) (dto : CreateUserDto)
        (db' : AppDB) (u : User),
      usersControllerCreate hasher db dto = .ok (db', u) →
      u.name = toUpperJS (trimJS dto.name) ∧ u ∈ db'.users) ∧
    (∀ (hasher : PasswordHasher) (db : AppDB) (id : Nat)
        (dto : UpdateUserDto) (n : String) (db' : AppDB)
        (res : UpdateUserResult),
      dto.name = some n →
      usersControllerUpdate hasher db id dto = .ok (db', res) →
      res.userName = toUpperJS (trimJS n) ∧
      ∃ u ∈ db'.users, u.id = id ∧ u.name = toUpperJS (trimJS n)) := by
  constructor
  · intro hasher db dto db' u h
    rw [usersControllerCreate, usersServiceCreate] at h
    rcases hfind : findUserByEmail db dto.email with _ | u₀ <;>
      rw [show ({ dto with name := normalizeName dto.name } :
        CreateUserDto).email = dto.email from rfl, hfind] at h
    · rcases h with ⟨rfl, rfl⟩
      refine ⟨normalizeName_eq dto.name, ?_⟩
      exact List.mem_append_right db.users (List.mem_cons_self _ [])
    · cases h
  · intro hasher db id dto n db' res hname h
    rw [usersControllerUpdate] at h
    rw [if_neg (by simp [hname])] at h
    rw [usersServiceUpdate] at h
    rcases hfind : findUserById db id with _ | user
    · rw [hfind] at h
      cases h
    · rw [hfind] at h
      have hmem : user ∈ db.users := List.mem_of_find?_eq_some hfind
      have hid : user.id = id := by
        have := List.find?_some hfind
        simpa using this
      dsimp only at h
      rcases hcond : emailConflictCheck db user dto.email with _ | _
      · rw [show ({ dto with name := dto.name.map normalizeName } :
          UpdateUserDto).email = dto.email from rfl, hcond] at h
        simp only [Bool.false_eq_true, if_false] at h
        rw [Except.ok.injEq, Prod.mk.injEq] at h
        rcases h with ⟨rfl, rfl⟩
        have hstored : (applyUserUpdate hasher user
            { dto with name := dto.name.map normalizeName }).name =
            toUpperJS (trimJS n) := by
          rw [applyUserUpdate]
          show (dto.name.map normalizeName).getD user.name = _
          rw [hname]
          exact normalizeName_eq n
        refine ⟨hstored, ?_⟩
        refine ⟨applyUserUpdate hasher user
          { dto with name := dto.name.map normalizeName }, ?_, ?_, hstored⟩
        · have hm := List.mem_map_of_mem
            (fun u => if u.id == user.id then applyUserUpdate hasher user
              { dto with name := dto.name.map normalizeName } else u) hmem
          simpa using hm
        · show ({ user with
              name := _, email := _, password := _, role := _ } : User).id = id
          exact hid
      · rw [show ({ dto with name := dto.name.map normalizeName } :
          UpdateUserDto).email = dto.email from rfl, hcond, if_pos rfl] at h
        cases h

/-- Witness for C10: creating "  juan perez " stores "JUAN PEREZ";
updating user 1 with name "  ana " stores and returns "ANA". -/
theorem users_name_normalized_witness :
    (({ id := 1, email := "j@x.com", password := "12345",
        name := "JUAN PEREZ", role := UserRole.attendee } : User).name =
      toUpperJS (trimJS "  juan perez ") ∧
     ({ id := 1, email := "j@x.com", password := "12345",
        name := "JUAN PEREZ", role := UserRole.attendee } : User) ∈
      ({ users := [{ id := 1, email := "j@x.com", password := "12345",
                     name := "JUAN PEREZ", role := UserRole.attendee }],
         events := [], registrations := [],
         nextUserId := 2, nextRegId := 1 } : AppDB).users) ∧
    (({ message := "Usuario actualizado correctamente.", userId := 1,
        userName := "ANA", userEmail := "a@x.com",
        userRole := UserRole.attendee } : UpdateUserResult).userName =
      toUpperJS (trimJS "  ana ") ∧
     ∃ u ∈ ({ users := [{ id := 1, email := "a@x.com", password := "h",
                          name := "ANA", role := UserRole.attendee }],
              events := [], registrations := [],
              nextUserId := 2, nextRegId := 1 } : AppDB).users,
       u.id = 1 ∧ u.name = toUpperJS (trimJS "  ana ")) := by
  constructor
  · exact users_name_normalized.1 plainHasher
      { users := [], events := [], registrations := [],
        nextUserId := 1, nextRegId := 1 }
      { name := "  juan perez ", email := "j@x.com", password := "12345",
        role := none }
      { users := [{ id := 1, email := "j@x.com", password := "12345",
                    name := "JUAN PEREZ", role := UserRole.attendee }],
        events := [], registrations := [],
        nextUserId := 2, nextRegId := 1 }
      { id := 1, email := "j@x.com", password := "12345",
        name := "JUAN PEREZ", role := UserRole.attendee }
      rfl
  · exact users_name_normalized.2 plainHasher
      { users := [{ id := 1, email := "a@x.com", password := "h",
                    name := "OLD", role := UserRole.attendee }],
        events := [], registrations := [],
        nextUserId := 2, nextRegId := 1 }
      1
      { name := some "  ana ", email := none, password := none,
        role := none }
      "  ana "
      { users := [{ id := 1, email := "a@x.com", password := "h",
                    name := "ANA", role := UserRole.attendee }],
        events := [], registrations := [],
        nextUserId := 2, nextRegId := 1 }
      { message := "Usuario actualizado correctamente.", userId := 1,
        userName := "ANA", userEmail := "a@x.com",
        userRole := UserRole.attendee }
      rfl rfl

mutual

/-- Cleaning leaves no sensitive key at any depth. -/
theorem okVal_cleanVal : ∀ v, okVal (cleanVal v) = true
  | .str _ => rfl
  | .num _ => rfl
  | .bool _ => rfl
  | .null => rfl
  | .date _ => rfl
  | .arr xs => okArr_cleanArr xs
  | .obj fs => okObj_cleanObj fs

/-- Cleaning leaves no sensitive key in any array element. -/
theorem okArr_cleanArr : ∀ xs, okArr (cleanArr xs) = true
  | .nil => rfl
  | .cons v rest => by
    show (okVal (cleanVal v) && okArr (cleanArr rest)) = true
    rw [okVal_cleanVal v, okArr_cleanArr rest]
    rfl

/-- Cleaning leaves no sensitive key in any object entry. -/
theorem okObj_cleanObj : ∀ fs, okObj (cleanObj fs) = true
  | .nil => rfl
  | .cons k v rest => by
    rw [cleanObj]
    split
    · exact okObj_cleanObj rest
    · next hks =>
      show (!isSensitiveKey k && okVal (cleanVal v) &&
        okObj (cleanObj rest)) = true
      rw [okVal_cleanVal v, okObj_cleanObj rest]
      simp [Bool.eq_false_iff.mpr hks]

end

mutual

/-- A value free of sensitive keys has no password key in any case. -/
theorem okVal_no_password : ∀ v, okVal v = true →
    hasPasswordKeyVal v = false
  | .str _, _ => rfl
  | .num _, _ => rfl
  | .bool _, _ => rfl
  | .null, _ => rfl
  | .date _, _ => rfl
  | .arr xs, h => okArr_no_password xs h
  | .obj fs, h => okObj_no_password fs h

/-- An array free of sensitive keys has no password key in any case. -/
theorem okArr_no_password : ∀ xs, okArr xs = true →
    hasPasswordKeyArr xs = false
  | .nil, _ => rfl
  | .cons v rest, h => by
    have h' : (okVal v && okArr rest) = true := h
    simp only [Bool.and_eq_true] at h'
    show (hasPasswordKeyVal v || hasPasswordKeyArr rest) = false
    rw [okVal_no_password v h'.1, okArr_no_password rest h'.2]
    rfl

/-- An object free of sensitive keys has no password key in any case. -/
theorem okObj_no_password : ∀ fs, okObj fs = true →
    hasPasswordKeyObj fs = false
  | .nil, _ => rfl
  | .cons k v rest, h => by
    have h' : (!isSensitiveKey k && okVal v && okObj rest) = true := h
    simp only [Bool.and_eq_true, Bool.not_eq_true'] at h'
    have hk : (toLowerJS k == "password") = false := by
      have hs := h'.1.1
      rw [isSensitiveKey] at hs
      cases hbeq : toLowerJS k == "password"
      · rfl
      · exfalso
        have hc : List.contains ["password", "token", "secret"]
            (toLowerJS k) = true := by
          simp [List.contains, List.elem, hbeq]
        rw [hc] at hs
        cases hs
    show ((toLowerJS k == "password") || hasPasswordKeyVal v ||
      hasPasswordKeyObj rest) = false
    rw [hk, okVal_no_password v h'.1.2, okObj_no_password rest h'.2]
    rfl

end

/-- C7 counterexample: the object `{ success: false, data: null }` has no
sensitive field, yet the interceptor returns it unchanged because it
already carries `success` and `data` keys; the serialized output has
`success = false`, so the response is not wrapped as
`{ success: true, data: ... }` as the claim states. -/
theorem sanitize_wrap_counterexample :
    interceptResponse (JVal.obj (.cons "success" (.bool false)
        (.cons "data" .null .nil))) =
      JVal.obj (.cons "success" (.bool false) (.cons "data" .null .nil)) ∧
    getSuccessField (interceptResponse (JVal.obj (.cons "success"
        (.bool false) (.cons "data" .null .nil)))) =
      some (.bool false) :=
  ⟨rfl, rfl⟩

/-- C7 (amended): for every response value the sanitization step removes
every field named password, token or secret in any letter case at any
depth — in particular no password key (any case) survives — and the
result is wrapped as `{ success: true, data: ... }` unless the sanitized
value is already an object carrying `success` and `data` keys, in which
case it is returned unwrapped. -/
theorem sanitize_response_spec (v : JVal) :
    okVal (interceptResponse v) = true ∧
    hasPasswordKeyVal (interceptResponse v) = false ∧
    (interceptResponse v =
        .obj (.cons "success" (.bool true) (.cons "data" (cleanVal v) .nil)) ∨
      (alreadyEnveloped (cleanVal v) = true ∧
        interceptResponse v = cleanVal v)) := by
  have hok := okVal_cleanVal v
  by_cases he : alreadyEnveloped (cleanVal v) = true
  · have hi : interceptResponse v = cleanVal v := by
      rw [interceptResponse]
      simp only [he, if_true]
    refine ⟨?_, ?_, Or.inr ⟨he, hi⟩⟩
    · rw [hi]; exact hok
    · rw [hi]; exact okVal_no_password _ hok
  · have he' : alreadyEnveloped (cleanVal v) = false :=
      Bool.eq_false_iff.mpr he
    have hi : interceptResponse v =
        .obj (.cons "success" (.bool true)
          (.cons "data" (cleanVal v) .nil)) := by
      rw [interceptResponse]
      simp only [he', Bool.false_eq_true, if_false]
    refine ⟨?_, ?_, Or.inl hi⟩
    · rw [hi]
      have h1 : isSensitiveKey "success" = false := by decide
      have h2 : isSensitiveKey "data" = false := by decide
      simp [okVal, okObj, h1, h2, hok]
    · rw [hi]
      have h3 : (toLowerJS "success" == "password") = false := by decide
      have h4 : (toLowerJS "data" == "password") = false := by decide
      simp [hasPasswordKeyVal, hasPasswordKeyObj, h3, h4,
        okVal_no_password _ hok]

end AppNest
